/-
Verification of the cognet bot-marketplace core.

This file gives a shallow embedding, in Lean 4, of the state and operations
of the marketplace coordination core found in the repository sources
(models.py, mediator.py, ai_orchestrator.py, bot_base.py, provider_bot.py,
requestor_bot.py), and proves or refutes the specification's claims about
them.

Conventions of the embedding:
  * Python dicts keyed by strings become association lists
    (List (String × α)) with dict-style helpers (dictLookup, dictInsert,
    dictPop); keys are unique in any state reachable through the dict
    operations, and theorems that need that invariant take it as a
    Nodup hypothesis on the key list.
  * External effects (HTTP calls to peers, the OpenAI judgment oracle,
    uuid4 fresh ids, wall-clock/event-loop time, hashlib.md5, asyncio
    sleeps) are passed in as explicit parameters: an oracle outcome is an
    Option/value parameter (none = the call raised or its output was
    unparseable), fresh ids and clock readings are plain arguments, and
    md5 is an arbitrary function String → String, so every theorem about
    hashing holds for the real md5 in particular.
  * asyncio background tasks scheduled with add_task(_expire_service, id,
    ttl) become timer records (fireTime, id) appended to the state; the
    callback body itself is the function expire_service below, applied
    when a timer fires.
  * Opaque JSON payloads (request parameters, generated data) are carried
    as strings; none of the verified properties inspects them.
-/
import Mathlib

namespace Cognet

/-! ## Data model (models.py) -/

inductive BotType
  | requestor
  | provider
  | hybrid
deriving DecidableEq

inductive ServiceCategory
  | news
  | finance
  | weather
  | social_media
  | ai
  | other
deriving DecidableEq

/-- The wire value of a category (ServiceCategory(str, Enum) in models.py). -/
def ServiceCategory.value : ServiceCategory → String
  | .news => "news"
  | .finance => "finance"
  | .weather => "weather"
  | .social_media => "social_media"
  | .ai => "ai"
  | .other => "other"

inductive ServiceFormat
  | json
  | text
  | html
  | csv
deriving DecidableEq

structure Bot where
  id : String
  name : String
  type : BotType
  description : String
  api_endpoint : String
  capabilities : List ServiceCategory
  active : Bool := true
deriving DecidableEq

structure ServiceDefinition where
  id : String
  name : String
  description : String
  provider_id : String
  category : ServiceCategory
  formats : List ServiceFormat := [ServiceFormat.json]
  endpoint : String
  parameters : List (String × String) := []
  ttl : Option Nat := none
deriving DecidableEq

structure ServiceRequest where
  requestor_id : String
  category : ServiceCategory
  description : String
  required_format : ServiceFormat := ServiceFormat.json
  response_schema : Option String := none
  parameters : List (String × String) := []
  ttl : Option Nat := none
deriving DecidableEq

structure NegotiationOffer where
  request_id : String
  provider_id : String
  can_fulfill : Bool
  proposed_endpoint : Option String := none
  proposed_format : Option ServiceFormat := none
  constraints : Option String := none
  ttl : Option Nat := none
deriving DecidableEq

structure NegotiationResponse where
  offer_id : String
  accepted : Bool
  modifications : Option String := none
  message : Option String := none
deriving DecidableEq

structure ServiceNotification where
  service_id : String
  provider_id : String
  requestor_id : Option String := none
  endpoint : String
  category : ServiceCategory
  description : String
  ttl : Option Nat := none
deriving DecidableEq

/-! ## Dict helpers

Python dicts keyed by id become association lists.  dictInsert models
dict assignment (replace the entry holding the key, or append a new one),
dictPop models dict.pop (remove the entry holding the key), dictLookup
models dict.get / the item lookup that follows an `in` check. -/

def dictLookup {α : Type} : List (String × α) → String → Option α
  | [], _ => none
  | kv :: rest, k => if kv.1 = k then some kv.2 else dictLookup rest k

def dictInsert {α : Type} : List (String × α) → String → α → List (String × α)
  | [], k, v => [(k, v)]
  | kv :: rest, k, v => if kv.1 = k then (k, v) :: rest else kv :: dictInsert rest k v

def dictPop {α : Type} (l : List (String × α)) (k : String) : List (String × α) :=
  l.filter (fun kv => decide (kv.1 ≠ k))

def dictHasKey {α : Type} (l : List (String × α)) (k : String) : Bool :=
  l.any (fun kv => kv.1 = k)

theorem dictLookup_insert {α : Type} (l : List (String × α)) (k : String) (v : α) :
    dictLookup (dictInsert l k v) k = some v := by
  induction l with
  | nil => simp [dictInsert, dictLookup]
  | cons kv rest ih =>
    by_cases h : kv.1 = k
    · simp [dictInsert, dictLookup, h]
    · simp [dictInsert, dictLookup, h, ih]

theorem dictLookup_isSome_iff_hasKey {α : Type} (l : List (String × α)) (k : String) :
    (dictLookup l k).isSome = dictHasKey l k := by
  induction l with
  | nil => simp [dictLookup, dictHasKey]
  | cons kv rest ih =>
    by_cases h : kv.1 = k
    · simp [dictLookup, dictHasKey, h]
    · simp [dictLookup, dictHasKey, h] at ih ⊢
      exact ih

/-! ## Registry / mediator (mediator.py, class MediatorService) -/

structure Transaction where
  type : String
  timestamp : Nat
  details : List (String × String)
deriving DecidableEq

/-- In-memory state of MediatorService, plus the expiry timers created by
background_tasks.add_task(_expire_service / _expire_request, id, ttl):
each timer records the absolute time at which the sleep(ttl) inside the
callback elapses, and the id the callback will then try to pop. -/
structure MediatorState where
  bots : List (String × Bot) := []
  services : List (String × ServiceDefinition) := []
  requests : List (String × ServiceRequest) := []
  transactions : List Transaction := []
  service_timers : List (Nat × String) := []
  request_timers : List (Nat × String) := []
deriving DecidableEq

def MediatorState.empty : MediatorState := {}

def logTransaction (st : MediatorState) (now : Nat) (ttype : String)
    (details : List (String × String)) : MediatorState :=
  { st with transactions := st.transactions ++ [⟨ttype, now, details⟩] }

/-- POST /bots/register: unconditional upsert keyed by bot.id. -/
def register_bot (st : MediatorState) (now : Nat) (bot : Bot) : MediatorState × Bot :=
  let st := { st with bots := dictInsert st.bots bot.id bot }
  let st := logTransaction st now "bot_registration" [("bot_id", bot.id)]
  (st, bot)

/-- DELETE /bots/\x7bbot_id\x7d (delete_bot in mediator.py): 404 when the id is
unknown; otherwise pops the bot, collects the ids of all services whose
provider_id equals bot_id, pops each of those service entries, and logs a
deregistration transaction.  The error case carries the HTTP status code. -/
def delete_bot (st : MediatorState) (now : Nat) (bot_id : String) :
    Except Nat (MediatorState × Bot) :=
  match dictLookup st.bots bot_id with
  | none => Except.error 404
  | some bot =>
    let bots := dictPop st.bots bot_id
    let services_to_remove :=
      (st.services.filter (fun kv => decide (kv.2.provider_id = bot_id))).map (·.1)
    let services := st.services.filter (fun kv => !(services_to_remove.contains kv.1))
    let st := { st with bots := bots, services := services }
    let st := logTransaction st now "bot_deregistration" [("bot_id", bot_id)]
    Except.ok (st, bot)

/-- Builds the ServiceDefinition that the notify_service route constructs
from a ServiceNotification (mediator.py lines 212-221). -/
def serviceFromNotification (service_id : String) (n : ServiceNotification) :
    ServiceDefinition :=
  { id := service_id
    name := "Service from " ++ n.provider_id
    description := n.description
    provider_id := n.provider_id
    category := n.category
    formats := [ServiceFormat.json]
    endpoint := n.endpoint
    parameters := []
    ttl := n.ttl }

/-- POST /services/notify (notify_service in mediator.py): picks
notification.service_id or a fresh uuid4, builds a ServiceDefinition from
the notification, stores it under that id, schedules an expiry timer when
a TTL is present, and logs the transaction.  Returns the service id that
the route reports back.  Note that, unlike the /services/register route,
this path performs no check that the provider is a registered bot. -/
def notify_service_route (st : MediatorState) (now : Nat) (n : ServiceNotification)
    (freshId : String) : MediatorState × String :=
  let service_id := if n.service_id = "" then freshId else n.service_id
  let service := serviceFromNotification service_id n
  let st := { st with services := dictInsert st.services service_id service }
  let st :=
    match service.ttl with
    | some ttl => { st with service_timers := st.service_timers ++ [(now + ttl, service_id)] }
    | none => st
  let st := logTransaction st now "service_notification"
    [("service_id", service_id), ("provider_id", n.provider_id)]
  (st, service_id)

/-- POST /services/register (register_service in mediator.py): rejects with
HTTP 400 when the provider is not a registered bot, assigns a fresh id when
none was given, stores the service and schedules the TTL timer. -/
def register_service (st : MediatorState) (now : Nat) (service : ServiceDefinition)
    (freshId : String) : Except Nat (MediatorState × ServiceDefinition) :=
  if (dictLookup st.bots service.provider_id).isSome then
    let service := if service.id = "" then { service with id := freshId } else service
    let st := { st with services := dictInsert st.services service.id service }
    let st :=
      match service.ttl with
      | some ttl => { st with service_timers := st.service_timers ++ [(now + ttl, service.id)] }
      | none => st
    let st := logTransaction st now "service_registration"
      [("service_id", service.id), ("provider_id", service.provider_id)]
    Except.ok (st, service)
  else
    Except.error 400

/-- Body of the _expire_service callback after its sleep(ttl) elapses
(mediator.py lines 264-269): if the id is still a key of the services
dict, pop it.  The check looks only at id presence; it does not ask
whether the service was refreshed after this callback was scheduled. -/
def expire_service (st : MediatorState) (service_id : String) : MediatorState :=
  if dictHasKey st.services service_id then
    { st with services := dictPop st.services service_id }
  else st

/-! ## AI orchestrator (ai_orchestrator.py, class AIOrchestrator)

The judgment oracle (openai_service.generate_structured_content) is an
external capability; each orchestrator operation takes the outcome of its
one oracle call as a parameter.  none models the call raising (the
except-branch of the source); some xs models a successful call whose
parsed "matches" / "rankings" array is xs. -/

/-- One element of the "matches" array the oracle returns inside
find_suitable_providers. -/
structure OracleMatch where
  provider_id : String
  confidence : ℚ
  reasoning : String
deriving DecidableEq

/-- The deterministic capability filter at the top of
find_suitable_providers: providers whose capability list contains the
request's category. -/
def categoryMatchingProviders (providerCache : List Bot) (request : ServiceRequest) :
    List Bot :=
  providerCache.filter (fun p => decide (request.category ∈ p.capabilities))

/-- good_matches: oracle matches whose confidence is strictly above 0.7. -/
def goodMatches (ms : List OracleMatch) : List OracleMatch :=
  ms.filter (fun m => decide (mkRat 7 10 < m.confidence))

/-- find_suitable_providers (ai_orchestrator.py lines 307-386).  The
provider cache is passed in (the source refreshes it from the mediator
when empty; that refresh is an external read and its result is the cache
value supplied here).  oracle is the outcome of the single
generate_structured_content call: it is only reached when more than two
providers pass the category filter. -/
def find_suitable_providers (oracle : Option (List OracleMatch))
    (providerCache : List Bot) (request : ServiceRequest) : List Bot :=
  let category_matching_providers := categoryMatchingProviders providerCache request
  if category_matching_providers = [] then []
  else if category_matching_providers.length ≤ 2 then category_matching_providers
  else
    match oracle with
    | none => category_matching_providers
    | some ms =>
      let good_matches := goodMatches ms
      if good_matches = [] then category_matching_providers
      else
        category_matching_providers.filter
          (fun p => good_matches.any (fun m => m.provider_id = p.id))

/-- Whether a run of find_suitable_providers reaches the oracle call:
the source only builds the prompt and calls the oracle after both the
emptiness early-return and the length-at-most-2 early-return have been
passed. -/
def oracleConsulted (providerCache : List Bot) (request : ServiceRequest) : Bool :=
  2 < (categoryMatchingProviders providerCache request).length

/-- One element of the "rankings" array the oracle returns inside
rank_responses; quality_score and reasoning are read with
rank.get(..., default). -/
structure RankingEntry where
  service_id : String
  quality_score : ℚ
  reasoning : String
deriving DecidableEq

/-- One element of the service_data list that rank_responses receives.
In the source these are mutable dicts; the two quality fields start
absent and are written by the ranking code, so they are Options here. -/
structure SvcResponse where
  service_id : String
  provider_id : String
  data : String
  quality_score : Option ℚ := none
  quality_reasoning : Option String := none
deriving DecidableEq

/-- First index of a list element satisfying the predicate — the index
Python's for-loop-with-break lands on. -/
def findFirstIdx {α : Type} (p : α → Bool) : List α → Option Nat
  | [] => none
  | a :: rest => if p a then some 0 else (findFirstIdx p rest).map (· + 1)

/-- Writing the two quality fields of the dict at position i — the
mutation response["quality_score"] = ...; response["quality_reasoning"]
= ... performed on an element of the responses list. -/
def setQualityAt : List SvcResponse → Nat → ℚ → String → List SvcResponse
  | [], _, _, _ => []
  | r :: rest, 0, q, s =>
    { r with quality_score := some q, quality_reasoning := some s } :: rest
  | r :: rest, Nat.succ i, q, s => r :: setQualityAt rest i q s

/-- The first merge loop of rank_responses (ai_orchestrator.py lines
493-500): for each oracle ranking, find the first response dict with the
same service id, write the ranking's score and reasoning into it, and
append (a reference to) that dict to ranked_responses.  The state is the
store of response dicts plus the list of appended positions. -/
def rankingsLoop (rankings : List RankingEntry)
    (st : List SvcResponse × List Nat) : List SvcResponse × List Nat :=
  rankings.foldl
    (fun st rank =>
      match findFirstIdx (fun r => r.service_id = rank.service_id) st.1 with
      | some i => (setQualityAt st.1 i rank.quality_score rank.reasoning, st.2 ++ [i])
      | none => st)
    st

/-- The second merge loop of rank_responses (lines 502-507): walk the
responses in order; whenever no dict already appended to ranked_responses
carries the same service id, mark the dict "Not evaluated" with score 0
and append it. -/
def unrankedLoop (positions : List Nat)
    (st : List SvcResponse × List Nat) : List SvcResponse × List Nat :=
  positions.foldl
    (fun st j =>
      let rid := ((st.1.get? j).map (·.service_id)).getD ""
      if st.2.any (fun i => ((st.1.get? i).map (·.service_id)).getD "" = rid) then st
      else (setQualityAt st.1 j 0 "Not evaluated", st.2 ++ [j]))
    st

/-- rank_responses (ai_orchestrator.py lines 419-514), as the returned
list.  oracle none models the call (or its parsing) raising, in which
case the original list is returned unranked; so does a response list of
length at most one.  The running per-provider quality aggregate the
source also updates is modeled separately by update_response_quality and
does not influence the returned list. -/
def rank_responses (oracle : Option (List RankingEntry))
    (responses : List SvcResponse) : List SvcResponse :=
  if responses.length ≤ 1 then responses
  else
    match oracle with
    | none => responses
    | some rankings =>
      let st := rankingsLoop rankings (responses, [])
      let st := unrankedLoop (List.range responses.length) st
      st.2.filterMap (fun i => st.1.get? i)

/-- The per-provider quality aggregate update performed by rank_responses
(lines 473-490): for each ranking, find the provider of the first
response with that service id and add the score into that provider's
(count, total_score) cell. -/
def update_response_quality (rankings : List RankingEntry)
    (responses : List SvcResponse)
    (quality : List (String × (Nat × ℚ))) : List (String × (Nat × ℚ)) :=
  rankings.foldl
    (fun quality rank =>
      match responses.find? (fun r => r.service_id = rank.service_id) with
      | some r =>
        let cell := (dictLookup quality r.provider_id).getD (0, 0)
        dictInsert quality r.provider_id (cell.1 + 1, cell.2 + rank.quality_score)
      | none => quality)
    quality

/-! ## Bot base (bot_base.py, class BotBase) -/

/-- What one POST to the mediator's /services/notify can look like from
the bot's side: the httpx call raised, or it completed with some HTTP
status code. -/
inductive NotifyAttempt
  | exn
  | status (code : Nat)
deriving DecidableEq

/-- The observable behaviour of one run of BotBase.notify_service:
whether it returned True, how many POST attempts it made, and how many
one-second asyncio.sleep(1) backoffs it performed. -/
structure NotifyTrace where
  result : Bool
  attempts : Nat
  sleeps : Nat
deriving DecidableEq

def max_retries : Nat := 3

/-- The while-loop of BotBase.notify_service (bot_base.py lines 154-185),
unrolled on the remaining retry budget.  env k is the outcome of the
k-th POST (0-based).  A 200 status returns True at once; any other
completed status and any raised exception both increment retry_count and
sleep one second; when retry_count reaches max_retries the function
returns False. -/
def notifyGo (env : Nat → NotifyAttempt) (made : Nat) : Nat → NotifyTrace
  | 0 => ⟨false, made, made⟩
  | remaining + 1 =>
    if env made = NotifyAttempt.status 200 then ⟨true, made + 1, made⟩
    else notifyGo env (made + 1) remaining

/-- BotBase.notify_service, as the trace of the whole call. -/
def bot_notify_service (env : Nat → NotifyAttempt) : NotifyTrace :=
  notifyGo env 0 max_retries

/-- Parsed shape of the JSON object run_ai_evaluation asks the model
for. -/
structure EvalResult where
  can_fulfill : Bool
  confidence : ℚ
  reasoning : String
deriving DecidableEq

/-- BotBase.run_ai_evaluation (bot_base.py lines 197-247).  oracleOut is
the outcome of the chat-completion call combined with the JSON
extraction: some r when a well-formed evaluation was produced, none when
the call raised or no parseable JSON could be extracted.  On none the
source's except-branch returns the fixed declining evaluation. -/
def run_ai_evaluation (oracleOut : Option EvalResult) : EvalResult :=
  match oracleOut with
  | some r => r
  | none => ⟨false, 0, "Error processing the evaluation"⟩

/-! ## Requestor bot (requestor_bot.py, class RequestorBot) -/

/-- One element of a request_responses[request_id] list. -/
inductive ResponseRecord
  | offerEntry (provider_id : String) (offer : NegotiationOffer)
      (accepted : Bool) (message : String)
  | directData (data : String)
  | serviceData (provider_id : String) (data : String)
deriving DecidableEq

structure RequestorState where
  active_requests : List (String × ServiceRequest) := []
  request_responses : List (String × List ResponseRecord) := []
deriving DecidableEq

/-- Appends an entry to request_responses[request_id], creating the list
first when the key is absent (the if-not-in / append idiom of the
source). -/
def appendResponse (responses : List (String × List ResponseRecord))
    (request_id : String) (entry : ResponseRecord) :
    List (String × List ResponseRecord) :=
  let cur := (dictLookup responses request_id).getD []
  dictInsert responses request_id (cur ++ [entry])

/-- RequestorBot.evaluate_offer (requestor_bot.py lines 196-219): the
baseline policy accepts exactly the offers whose can_fulfill flag is
true.  Returns (accepted, message). -/
def evaluate_offer (offer : NegotiationOffer) (_original_request : ServiceRequest) :
    Bool × String :=
  if offer.can_fulfill then (true, "Offer accepted")
  else (false, "Offer rejected - provider cannot fulfill requirements")

/-- The background consume_service task that an accepted offer with a
proposed endpoint schedules. -/
structure ConsumeTask where
  request_id : String
  provider_id : String
  endpoint : String
deriving DecidableEq

/-- POST /offer (receive_offer in requestor_bot.py lines 115-155).
freshOfferId is the uuid4 minted for the NegotiationResponse.  Returns
the response sent back, the updated state, and the scheduled consumption
task when one was added to background_tasks. -/
def receive_offer (st : RequestorState) (offer : NegotiationOffer)
    (freshOfferId : String) :
    NegotiationResponse × RequestorState × Option ConsumeTask :=
  let request_id := offer.request_id
  match dictLookup st.active_requests request_id with
  | none =>
    (⟨freshOfferId, false, none, some "Request not found or expired"⟩, st, none)
  | some original_request =>
    let ev := evaluate_offer offer original_request
    let recorded :=
      appendResponse st.request_responses request_id
        (.offerEntry offer.provider_id offer ev.1 ev.2)
    let st := { st with request_responses := recorded }
    let response : NegotiationResponse := ⟨freshOfferId, ev.1, none, some ev.2⟩
    let task :=
      match ev.1, offer.proposed_endpoint with
      | true, some endpoint => some ⟨request_id, offer.provider_id, endpoint⟩
      | _, _ => none
    (response, st, task)

/-! ## Provider bot (provider_bot.py, class ProviderBot) -/

/-- str.lower over the ASCII alphabet, character by character
(String.toLower is byte-position based and is rephrased over the char
list). -/
def pyLower (s : String) : String :=
  String.mk (s.data.map Char.toLower)

/-- Python's regex class \s over the ASCII characters the descriptions
use: space, tab, newline, carriage return, vertical tab, form feed. -/
def isPySpace (c : Char) : Bool :=
  c = ' ' ∨ c = '\t' ∨ c = '\n' ∨ c = '\r' ∨ c = Char.ofNat 11 ∨ c = Char.ofNat 12

/-- Python's regex class \w over ASCII: letters, digits, underscore. -/
def isWordChar (c : Char) : Bool :=
  c.isAlphanum ∨ c = '_'

/-- Collapses every run of consecutive spaces to a single space. -/
def squeezeSpaces : List Char → List Char
  | [] => []
  | [c] => [c]
  | a :: b :: rest =>
    if a = ' ' ∧ b = ' ' then squeezeSpaces (b :: rest)
    else a :: squeezeSpaces (b :: rest)

/-- Removes leading and trailing spaces (str.strip on a string whose only
whitespace is the plain space). -/
def trimSpaces (l : List Char) : List Char :=
  ((l.dropWhile (fun c => c = ' ')).reverse.dropWhile (fun c => c = ' ')).reverse

/-- The two re.sub normalization steps of _create_request_hash
(provider_bot.py lines 600-601): lowercase, drop every character that is
neither \w nor \s, then replace each whitespace run by one space and
strip the ends.  The whitespace replacement is realised by mapping the
surviving whitespace characters to plain spaces, squeezing runs, and
trimming. -/
def normalizeDescription (description : String) : String :=
  let lowered := pyLower description
  let stripped := lowered.data.filter (fun c => isWordChar c || isPySpace c)
  let spaced := stripped.map (fun c => if isPySpace c then ' ' else c)
  String.mk (trimSpaces (squeezeSpaces spaced))

/-- Python's substring test (needle in hay). -/
def containsSubstr (hay needle : String) : Bool :=
  hay.data.tails.any (fun t => needle.data.isPrefixOf t)

/-- Python's str.startswith. -/
def pyStartsWith (s pre : String) : Bool :=
  pre.data.isPrefixOf s.data

def stock_symbols : List String := ["AAPL", "MSFT", "GOOGL", "AMZN", "META"]

/-- The canonical form _create_request_hash computes before hashing
(provider_bot.py lines 598-615): the normalized description, then the
category-specific collapses — a finance description naming a known stock
symbol becomes "SYMBOL stock data" (the first symbol of the list wins),
and an AI description containing "trends" becomes "ai trends". -/
def canonicalDescription (category : ServiceCategory) (description : String) : String :=
  let nd := normalizeDescription description
  let nd :=
    if category = ServiceCategory.finance then
      match stock_symbols.find? (fun sym => containsSubstr (pyLower nd) (pyLower sym)) with
      | some sym => sym ++ " stock data"
      | none => nd
    else nd
  if category = ServiceCategory.ai ∧ containsSubstr (pyLower nd) "trends" then "ai trends"
  else nd

/-- The string fed to hashlib.md5 (provider_bot.py line 618). -/
def hashInput (category : ServiceCategory) (description : String) : String :=
  category.value ++ ":" ++ canonicalDescription category description

/-- ProviderBot._create_request_hash (provider_bot.py lines 588-619).
hashlib.md5 is an external library routine; md5 stands for its
hex-digest composition, so every property proved for all md5 holds for
the real digest in particular. -/
def create_request_hash (md5 : String → String) (request : ServiceRequest) : String :=
  md5 (hashInput request.category request.description)

/-- A dynamic_endpoints cell: the request, the generated data payload,
the event-loop timestamp, and the request hash (fulfill_request stores
no hash key; the two process_request stores do). -/
structure EndpointData where
  request : ServiceRequest
  data : String
  created_at : Nat
  hash : Option String
deriving DecidableEq

structure ProviderState where
  id : String
  name : String
  description : String
  api_endpoint : String
  capabilities : List ServiceCategory
  active_requests : List (String × ServiceRequest) := []
  dynamic_endpoints : List (String × EndpointData) := []
deriving DecidableEq

/-- What _find_matching_service produced: the id and endpoint of the
matched existing service, when any. -/
structure FoundService where
  id : String
  endpoint : String
deriving DecidableEq

/-- Outcome of the negotiation try-block of process_request for a
non-demo requestor: the requestor lookup failed (get_bot_info_by_id
returned None, having swallowed its own errors), the offer POST or the
parsing of its body raised, or the POST completed with a status code and
— when that code is 200 — a parsed NegotiationResponse body. -/
inductive NegotiationEnv
  | notFound
  | raised
  | post (code : Nat) (parsed : NegotiationResponse)
deriving DecidableEq

/-- The externally visible side effects of one process_request run:
offers POSTed (or attempted) to the requestor, ServiceNotifications sent
to the mediator, and direct data sends attempted by fulfill_request,
recorded as (requestor_id, service_id). -/
structure ProviderEffects where
  offers_posted : List NegotiationOffer := []
  notifications : List ServiceNotification := []
  direct_sends : List (String × String) := []
deriving DecidableEq

/-- The ServiceNotification the provider sends for a newly created
service (the pattern repeated at provider_bot.py lines 254-262, 298-306,
318-326 and 371-379). -/
def newServiceNotification (st : ProviderState) (request : ServiceRequest)
    (service_id endpoint : String) : ServiceNotification :=
  { service_id := service_id
    provider_id := st.id
    requestor_id := some request.requestor_id
    endpoint := endpoint
    category := request.category
    description := "Service for: " ++ request.description
    ttl := some 3600 }

/-- ProviderBot.fulfill_request (provider_bot.py lines 351-399): store
regenerated data at the dynamic endpoint (without a hash key), notify
the mediator, and attempt to send the data directly to the requestor
when the requestor bot can be looked up. -/
def fulfill_request (st : ProviderState) (request : ServiceRequest)
    (service_id endpoint : String) (data2 : String) (now2 : Nat)
    (requestorFound : Bool) : ProviderState × ProviderEffects :=
  let st :=
    { st with dynamic_endpoints :=
        dictInsert st.dynamic_endpoints service_id ⟨request, data2, now2, none⟩ }
  let notif := newServiceNotification st request service_id endpoint
  (st, { notifications := [notif]
         direct_sends := if requestorFound then [(request.requestor_id, service_id)] else [] })

/-- ProviderBot.process_request (provider_bot.py lines 127-332), with
every external interaction passed in: md5 for hashlib, aiEval for the
oracle outcome inside run_ai_evaluation, existing for the result of
_find_matching_service, freshServiceId for uuid4, data / fulfillData for
the generate_data outputs, now / fulfillNow for the event-loop clock,
negoEnv for the negotiation try-block environment, and
fulfillRequestorFound for the requestor lookup inside fulfill_request.
In the raised case of negoEnv the offer POST had been attempted, so it
is still recorded among offers_posted. -/
def process_request (st : ProviderState) (request : ServiceRequest)
    (request_id : Option String) (md5 : String → String)
    (aiEval : Option EvalResult) (existing : Option FoundService)
    (freshServiceId : String) (data : String) (now : Nat)
    (negoEnv : NegotiationEnv) (fulfillData : String) (fulfillNow : Nat)
    (fulfillRequestorFound : Bool) : ProviderState × ProviderEffects :=
  let request_key := request_id.getD (request.requestor_id ++ request.description)
  if (dictLookup st.active_requests request_key).isSome then (st, {})
  else
    let st :=
      { st with active_requests := dictInsert st.active_requests request_key request }
    if ¬ (request.category ∈ st.capabilities) then (st, {})
    else
      let evaluation := run_ai_evaluation aiEval
      let evaluation :=
        if request.requestor_id = "demo-orchestrator" ∧ request.category ∈ st.capabilities
        then ⟨true, mkRat 8 10, "Accepting orchestrator request for testing"⟩
        else evaluation
      if ¬ evaluation.can_fulfill then (st, {})
      else
        let request_hash := create_request_hash md5 request
        match existing with
        | some svc =>
          let st :=
            { st with dynamic_endpoints :=
                dictInsert st.dynamic_endpoints svc.id ⟨request, data, now, some request_hash⟩ }
          let notif :=
            { newServiceNotification st request svc.id svc.endpoint with
                description := "Service for: " ++ request.description ++ " (Updated)" }
          (st, { notifications := [notif] })
        | none =>
          let endpoint := st.api_endpoint ++ "/services/" ++ freshServiceId
          let offer : NegotiationOffer :=
            { request_id := request_key
              provider_id := st.id
              can_fulfill := true
              proposed_endpoint := some endpoint
              proposed_format := some request.required_format
              ttl := some 3600 }
          let cell : EndpointData := ⟨request, data, now, some request_hash⟩
          let st :=
            { st with dynamic_endpoints :=
                dictInsert st.dynamic_endpoints freshServiceId cell }
          if pyStartsWith request.requestor_id "demo-" then
            (st, { notifications := [newServiceNotification st request freshServiceId endpoint] })
          else
            match negoEnv with
            | .notFound =>
              (st, { notifications := [newServiceNotification st request freshServiceId endpoint] })
            | .raised =>
              (st, { offers_posted := [offer]
                     notifications := [newServiceNotification st request freshServiceId endpoint] })
            | .post code parsed =>
              if code = 200 ∧ parsed.accepted then
                let f :=
                  fulfill_request st request freshServiceId endpoint fulfillData fulfillNow
                    fulfillRequestorFound
                (f.1, { f.2 with offers_posted := offer :: f.2.offers_posted })
              else (st, { offers_posted := [offer] })

/-! ## Helper lemmas about the dict representation -/

/-- In a dict (unique keys), two entries with the same key are the same
entry. -/
theorem keyNodup_inj {α : Type} {l : List (String × α)}
    (h : (l.map Prod.fst).Nodup) {kv kv' : String × α}
    (h1 : kv ∈ l) (h2 : kv' ∈ l) (he : kv.1 = kv'.1) : kv = kv' := by
  induction l with
  | nil => cases h1
  | cons a rest ih =>
    simp only [List.map_cons, List.nodup_cons] at h
    rcases List.mem_cons.mp h1 with rfl | h1' <;> rcases List.mem_cons.mp h2 with rfl | h2'
    · rfl
    · exact absurd (he ▸ List.mem_map_of_mem Prod.fst h2') h.1
    · exact absurd (he ▸ List.mem_map_of_mem Prod.fst h1') h.1
    · exact ih h.2 h1' h2'

/-- For an entry of a dict, having its key among the keys of the entries
selected by a value-level predicate is the same as satisfying the
predicate. -/
theorem contains_key_filter {α : Type} (f : α → Bool) {l : List (String × α)}
    (hnd : (l.map Prod.fst).Nodup) {kv : String × α} (hm : kv ∈ l) :
    ((l.filter (fun x => f x.2)).map Prod.fst).contains kv.1 = f kv.2 := by
  cases hf : f kv.2
  · apply Bool.eq_false_iff.mpr
    intro hc
    rcases List.contains_iff_exists_mem_beq.mp hc with ⟨b, hbmem, hbeq⟩
    have hb : kv.1 = b := eq_of_beq hbeq
    rcases List.mem_map.mp hbmem with ⟨x, hxf, hx1⟩
    rcases List.mem_filter.mp hxf with ⟨hxl, hfx⟩
    have hxkv : x = kv := keyNodup_inj hnd hxl hm (by rw [hx1, ← hb])
    rw [hxkv, hf] at hfx
    cases hfx
  · exact List.contains_iff_exists_mem_beq.mpr
      ⟨kv.1, List.mem_map_of_mem Prod.fst (List.mem_filter.mpr ⟨hm, hf⟩), by simp⟩

/-! ## Claim C1 — TTL refresh versus the previously scheduled expiry -/

/-- A service notification carrying a 10-second TTL. -/
def c1Notification : ServiceNotification :=
  { service_id := "svc"
    provider_id := "prov"
    requestor_id := none
    endpoint := "http://prov/services/svc"
    category := ServiceCategory.weather
    description := "weather feed"
    ttl := some 10 }

/-- Registry state after the service is first registered at time 0. -/
def c1AfterRegister : MediatorState :=
  (notify_service_route MediatorState.empty 0 c1Notification "f1").1

/-- Registry state after the same service is refreshed at time 5,
before its 10-second TTL has elapsed. -/
def c1AfterRefresh : MediatorState :=
  (notify_service_route c1AfterRegister 5 c1Notification "f2").1

/-- Claim C1: the spec says that a Service refreshed before its TTL
elapses is never evicted by its previous TTL callback and is evicted
only at refresh_time + ttl.  The code violates this: _expire_service
checks only that the id is still present.  Concretely, a service
registered at time 0 with ttl 10 and refreshed at time 5 has two pending
timers, (10, svc) and (15, svc); when the first — the callback scheduled
at registration — fires at time 10 (which is before refresh_time + ttl
= 15), it finds the id present and evicts the freshly refreshed service.
This theorem evaluates the embedded code on that failing input. -/
theorem C1_previous_ttl_callback_evicts_refreshed_service :
    c1AfterRefresh.service_timers = [(10, "svc"), (15, "svc")]
    ∧ dictHasKey c1AfterRefresh.services "svc" = true
    ∧ dictLookup (expire_service c1AfterRefresh "svc").services "svc" = none
    ∧ 10 < 5 + 10 := by
  refine ⟨by decide, by decide, by decide, by decide⟩

/-! ## Claim C2 — deregistering an agent removes exactly its services -/

/-- Claim C2: for every registered agent, delete_bot removes the agent
and exactly the services whose provider_id equals the agent's id: the
surviving services are precisely the entries of other providers (so the
service count drops by exactly the number of services the agent owned),
and every other agent entry is untouched.  The Nodup hypothesis is the
dict invariant that service ids are unique keys. -/
theorem C2_deregister_agent (st : MediatorState) (now : Nat) (bot_id : String) (bot : Bot)
    (hb : dictLookup st.bots bot_id = some bot)
    (hnd : (st.services.map Prod.fst).Nodup) :
    ∃ st', delete_bot st now bot_id = Except.ok (st', bot)
      ∧ st'.services = st.services.filter (fun kv => !(decide (kv.2.provider_id = bot_id)))
      ∧ st'.services.length
          + (st.services.filter (fun kv => decide (kv.2.provider_id = bot_id))).length
          = st.services.length
      ∧ st'.bots = dictPop st.bots bot_id
      ∧ (∀ kv ∈ st.bots, kv.1 ≠ bot_id → kv ∈ st'.bots)
      ∧ (∀ kv ∈ st.services, kv.2.provider_id ≠ bot_id → kv ∈ st'.services)
      ∧ (∀ kv ∈ st'.services, kv ∈ st.services ∧ kv.2.provider_id ≠ bot_id) := by
  have hfilter :
      st.services.filter
          (fun kv =>
            !(((st.services.filter (fun x => decide (x.2.provider_id = bot_id))).map
                (·.1)).contains kv.1))
        = st.services.filter (fun kv => !(decide (kv.2.provider_id = bot_id))) := by
    apply List.filter_congr
    intro kv hkv
    have := contains_key_filter (fun s => decide (s.provider_id = bot_id)) hnd hkv
    simp only [this]
  unfold delete_bot
  rw [hb]
  refine ⟨_, rfl, ?_, ?_, ?_, ?_, ?_, ?_⟩
  · simpa only [logTransaction] using hfilter
  · simp only [logTransaction]
    rw [hfilter]
    have h := List.length_eq_length_filter_add
      (l := st.services) (fun kv => decide (kv.2.provider_id = bot_id))
    omega
  · simp only [logTransaction]
  · intro kv hkv hne
    simp only [logTransaction, dictPop]
    exact List.mem_filter.mpr ⟨hkv, by simpa using hne⟩
  · intro kv hkv hne
    simp only [logTransaction]
    rw [hfilter]
    exact List.mem_filter.mpr ⟨hkv, by simpa using hne⟩
  · intro kv hkv
    simp only [logTransaction] at hkv
    rw [hfilter] at hkv
    have := List.mem_filter.mp hkv
    refine ⟨this.1, by simpa using this.2⟩

/-- Concrete fixture for the C2 witness: two agents, agent A owning two
of the three services. -/
def c2BotA : Bot :=
  { id := "A", name := "alpha", type := BotType.provider, description := "a",
    api_endpoint := "http://a", capabilities := [ServiceCategory.finance] }

def c2BotB : Bot :=
  { id := "B", name := "beta", type := BotType.provider, description := "b",
    api_endpoint := "http://b", capabilities := [ServiceCategory.ai] }

def c2Service (sid pid : String) : ServiceDefinition :=
  { id := sid, name := sid, description := sid, provider_id := pid,
    category := ServiceCategory.finance, endpoint := "http://" ++ pid ++ "/" ++ sid }

def c2State : MediatorState :=
  { bots := [("A", c2BotA), ("B", c2BotB)]
    services := [("s1", c2Service "s1" "A"), ("s2", c2Service "s2" "B"),
                 ("s3", c2Service "s3" "A")] }

/-- Witness for C2 at a concrete registry: agent A with two services is
deregistered. -/
theorem C2_deregister_agent_witness :
    dictLookup c2State.bots "A" = some c2BotA
    ∧ (c2State.services.map Prod.fst).Nodup
    ∧ ∃ st', delete_bot c2State 7 "A" = Except.ok (st', c2BotA)
      ∧ st'.services = c2State.services.filter (fun kv => !(decide (kv.2.provider_id = "A")))
      ∧ st'.services.length
          + (c2State.services.filter (fun kv => decide (kv.2.provider_id = "A"))).length
          = c2State.services.length
      ∧ st'.bots = dictPop c2State.bots "A"
      ∧ (∀ kv ∈ c2State.bots, kv.1 ≠ "A" → kv ∈ st'.bots)
      ∧ (∀ kv ∈ c2State.services, kv.2.provider_id ≠ "A" → kv ∈ st'.services)
      ∧ (∀ kv ∈ st'.services, kv ∈ c2State.services ∧ kv.2.provider_id ≠ "A") :=
  ⟨by decide, by decide, C2_deregister_agent c2State 7 "A" c2BotA (by decide) (by decide)⟩

/-! ## Claim C3 — the notify path and unknown providers -/

/-- A notification whose provider is not registered anywhere. -/
def c3Notification : ServiceNotification :=
  { service_id := "svc3"
    provider_id := "ghost"
    requestor_id := none
    endpoint := "http://ghost/services/svc3"
    category := ServiceCategory.news
    description := "news feed"
    ttl := none }

/-- Counterexample to claim C3: the claim says the service-notify path
rejects a notification whose provider_id is unknown and stores no
Service, because it allegedly goes through register_service.  In the
code, notify_service builds the ServiceDefinition itself and stores it
without any provider check: starting from an empty registry (no bots at
all), the notification is accepted and the Service is stored. -/
theorem C3_unknown_provider_is_stored_counterexample :
    MediatorState.empty.bots = []
    ∧ dictLookup (notify_service_route MediatorState.empty 0 c3Notification "f").1.services
        "svc3" = some (serviceFromNotification "svc3" c3Notification) := by
  refine ⟨by decide, by decide⟩

/-- Claim C3 amended: for every ServiceNotification whose provider_id
does not resolve to a registered agent, the service-notify path does
not reject it — it stores the Service built from the notification
anyway, because notify_service never consults the bots store and never
calls register_service. -/
theorem C3_notify_stores_service_despite_unknown_provider
    (st : MediatorState) (now : Nat) (n : ServiceNotification) (freshId : String)
    (_hp : dictLookup st.bots n.provider_id = none) :
    dictLookup (notify_service_route st now n freshId).1.services
        (notify_service_route st now n freshId).2
      = some (serviceFromNotification (notify_service_route st now n freshId).2 n) := by
  cases h : n.ttl <;>
    simp [notify_service_route, serviceFromNotification, logTransaction, h,
      dictLookup_insert]

/-- Witness for the amended C3 at a concrete unknown provider. -/
theorem C3_notify_stores_service_witness :
    dictLookup MediatorState.empty.bots c3Notification.provider_id = none
    ∧ dictLookup (notify_service_route MediatorState.empty 4 c3Notification "f").1.services
        (notify_service_route MediatorState.empty 4 c3Notification "f").2
      = some (serviceFromNotification
          (notify_service_route MediatorState.empty 4 c3Notification "f").2 c3Notification) :=
  ⟨by decide,
    C3_notify_stores_service_despite_unknown_provider MediatorState.empty 4 c3Notification "f"
      (by decide)⟩

/-! ## Claim C5 — trivial candidate sets never reach the oracle -/

/-- Claim C5: whenever at most two providers pass the capability filter,
find_suitable_providers returns exactly those providers — for every
possible oracle outcome, so the result cannot depend on the oracle —
and the control flow never reaches the oracle call. -/
theorem C5_small_candidate_sets_skip_oracle (providerCache : List Bot)
    (request : ServiceRequest)
    (h : (categoryMatchingProviders providerCache request).length ≤ 2) :
    (∀ oracle, find_suitable_providers oracle providerCache request
        = categoryMatchingProviders providerCache request)
    ∧ oracleConsulted providerCache request = false := by
  constructor
  · intro oracle
    unfold find_suitable_providers
    by_cases he : categoryMatchingProviders providerCache request = []
    · simp [he]
    · simp [he, h]
  · simp only [oracleConsulted, decide_eq_false_iff_not, not_lt]
    exact h

def c5Provider (pid : String) : Bot :=
  { id := pid, name := pid, type := BotType.provider, description := pid,
    api_endpoint := "http://" ++ pid, capabilities := [ServiceCategory.finance] }

def c5Request : ServiceRequest :=
  { requestor_id := "r", category := ServiceCategory.finance, description := "AAPL data" }

def c5Cache : List Bot :=
  [c5Provider "p1", c5Provider "p2"]

/-- Witness for C5: two capability-matching providers, and an oracle
outcome that would have filtered them away had it been consulted. -/
theorem C5_small_candidate_sets_skip_oracle_witness :
    (categoryMatchingProviders c5Cache c5Request).length ≤ 2
    ∧ ((∀ oracle, find_suitable_providers oracle c5Cache c5Request
          = categoryMatchingProviders c5Cache c5Request)
        ∧ oracleConsulted c5Cache c5Request = false) :=
  ⟨by decide, C5_small_candidate_sets_skip_oracle c5Cache c5Request (by decide)⟩

/-! ## Claim C6 — oracle failure falls back to the category filter -/

/-- Claim C6: with more than two capability-matching providers, when the
oracle call fails (none) or succeeds but yields no match with confidence
above 0.7, find_suitable_providers returns the full category-filtered
set; the selection never fails outright. -/
theorem C6_oracle_failure_falls_back (oracle : Option (List OracleMatch))
    (providerCache : List Bot) (request : ServiceRequest)
    (hlen : 2 < (categoryMatchingProviders providerCache request).length)
    (hor : oracle = none ∨ ∃ ms, oracle = some ms ∧ goodMatches ms = []) :
    find_suitable_providers oracle providerCache request
      = categoryMatchingProviders providerCache request := by
  have hne : ¬ categoryMatchingProviders providerCache request = [] := by
    intro he
    rw [he] at hlen
    simp at hlen
  have hgt : ¬ (categoryMatchingProviders providerCache request).length ≤ 2 :=
    Nat.not_le.mpr hlen
  rcases hor with rfl | ⟨ms, rfl, hms⟩
  · simp [find_suitable_providers, hne, hgt]
  · simp [find_suitable_providers, hne, hgt, hms]

def c6Cache : List Bot :=
  [c5Provider "p1", c5Provider "p2", c5Provider "p3"]

def c6LowConfidence : List OracleMatch :=
  [{ provider_id := "p1", confidence := mkRat 1 2, reasoning := "weak" },
   { provider_id := "p2", confidence := mkRat 7 10, reasoning := "borderline" }]

/-- Witness for C6: three matching providers; the oracle answers, but
with no confidence strictly above 0.7 (0.5 and exactly 0.7), so the full
category-filtered set comes back. -/
theorem C6_oracle_failure_falls_back_witness :
    2 < (categoryMatchingProviders c6Cache c5Request).length
    ∧ find_suitable_providers (some c6LowConfidence) c6Cache c5Request
        = categoryMatchingProviders c6Cache c5Request :=
  ⟨by decide,
    C6_oracle_failure_falls_back (some c6LowConfidence) c6Cache c5Request (by decide)
      (Or.inr ⟨c6LowConfidence, rfl, by decide⟩)⟩

/-! ## Claim C7 — offers for unknown or expired requests -/

/-- Claim C7: an Offer whose request_id is not among the requester's
active requests is answered with accepted = false and the message
"Request not found or expired", the state (in particular
request_responses) is left untouched, and no consumption task is
scheduled.  The embedded receive_offer is a total function, so this
path returns normally rather than raising. -/
theorem C7_offer_for_unknown_request_rejected (st : RequestorState)
    (offer : NegotiationOffer) (freshOfferId : String)
    (h : dictLookup st.active_requests offer.request_id = none) :
    (receive_offer st offer freshOfferId).1.accepted = false
    ∧ (receive_offer st offer freshOfferId).1.message = some "Request not found or expired"
    ∧ (receive_offer st offer freshOfferId).2.1 = st
    ∧ (receive_offer st offer freshOfferId).2.2 = none := by
  simp [receive_offer, h]

def c7Offer : NegotiationOffer :=
  { request_id := "never-published", provider_id := "p1", can_fulfill := true,
    proposed_endpoint := some "http://p1/services/x" }

def c7State : RequestorState :=
  { active_requests :=
      [("other-request",
        { requestor_id := "self", category := ServiceCategory.ai,
          description := "ai trends" })]
    request_responses := [] }

/-- Witness for C7: an offer referencing a request id that was never
published, received by a requestor with an unrelated active request. -/
theorem C7_offer_for_unknown_request_rejected_witness :
    dictLookup c7State.active_requests c7Offer.request_id = none
    ∧ ((receive_offer c7State c7Offer "offer-1").1.accepted = false
      ∧ (receive_offer c7State c7Offer "offer-1").1.message
          = some "Request not found or expired"
      ∧ (receive_offer c7State c7Offer "offer-1").2.1 = c7State
      ∧ (receive_offer c7State c7Offer "offer-1").2.2 = none) :=
  ⟨by decide, C7_offer_for_unknown_request_rejected c7State c7Offer "offer-1" (by decide)⟩

/-! ## Claim C8 — fingerprints of equivalently normalized descriptions -/

/-- Claim C8: two requests of the same category whose descriptions reach
the same canonical form (lowercasing, punctuation stripping, whitespace
collapsing, then the finance stock-symbol and AI trends collapses)
receive equal fingerprints from _create_request_hash, whatever digest
function md5 is. -/
theorem C8_fingerprint_equal_of_same_canonical (md5 : String → String)
    (r1 r2 : ServiceRequest)
    (hcat : r1.category = r2.category)
    (hcan : canonicalDescription r1.category r1.description
          = canonicalDescription r2.category r2.description) :
    create_request_hash md5 r1 = create_request_hash md5 r2 := by
  unfold create_request_hash hashInput
  rw [hcat] at hcan ⊢
  rw [hcan]

def c8Request1 : ServiceRequest :=
  { requestor_id := "r", category := ServiceCategory.finance,
    description := "AAPL stock price" }

def c8Request2 : ServiceRequest :=
  { requestor_id := "r", category := ServiceCategory.finance,
    description := "aapl   stock, price!!" }

/-- Witness for C8: the spec's own example pair — "AAPL stock price" and
"aapl   stock, price!!" both canonicalize to "AAPL stock data" under the
finance category, so their fingerprints agree for every digest. -/
theorem C8_fingerprint_equal_witness :
    c8Request1.category = c8Request2.category
    ∧ canonicalDescription c8Request1.category c8Request1.description
        = canonicalDescription c8Request2.category c8Request2.description
    ∧ canonicalDescription c8Request1.category c8Request1.description = "AAPL stock data"
    ∧ ∀ md5, create_request_hash md5 c8Request1 = create_request_hash md5 c8Request2 :=
  ⟨by decide, by decide, by decide,
    fun md5 => C8_fingerprint_equal_of_same_canonical md5 c8Request1 c8Request2
      (by decide) (by decide)⟩

/-! ## Claim C9 — notification retry policy -/

/-- Counterexample to claim C9: the claim says a Rejected or NotFound
reply from the registry is returned to the caller without being retried.
In the code the while-loop retries every non-200 outcome alike: against
a registry that answers 400 (the register_service rejection status) on
every attempt, notify_service makes all 3 POST attempts — so the
rejected reply was retried — sleeps after each, and returns False. -/
theorem C9_rejected_reply_is_retried_counterexample :
    bot_notify_service (fun _ => NotifyAttempt.status 400)
      = { result := false, attempts := 3, sleeps := 3 }
    ∧ 1 < (bot_notify_service (fun _ => NotifyAttempt.status 400)).attempts := by
  refine ⟨by decide, by decide⟩

/-- One failed attempt advances the loop: when the k-th POST does not
come back with status 200, the loop sleeps and tries again with one
less unit of retry budget. -/
theorem notifyGo_step (env : Nat → NotifyAttempt) (made rem : Nat)
    (h : env made ≠ NotifyAttempt.status 200) :
    notifyGo env made (rem + 1) = notifyGo env (made + 1) rem := by
  rw [notifyGo, if_neg h]

/-- Claim C9 amended: BotBase.notify_service treats every unsuccessful
attempt alike — a transient exception and an error reply such as
Rejected (400) or NotFound (404) are all retried with a one-second
backoff — making at most 3 POST attempts in total before reporting
failure (False) to the caller. -/
theorem C9_every_failure_retried_up_to_three_attempts (env : Nat → NotifyAttempt)
    (h : ∀ k, k < max_retries → env k ≠ NotifyAttempt.status 200) :
    bot_notify_service env = { result := false, attempts := 3, sleeps := 3 } := by
  have e1 : notifyGo env 0 3 = notifyGo env 1 2 := notifyGo_step env 0 2 (h 0 (by decide))
  have e2 : notifyGo env 1 2 = notifyGo env 2 1 := notifyGo_step env 1 1 (h 1 (by decide))
  have e3 : notifyGo env 2 1 = notifyGo env 3 0 := notifyGo_step env 2 0 (h 2 (by decide))
  show notifyGo env 0 3 = _
  rw [e1, e2, e3]
  rfl

/-- Witness for the amended C9: a registry that is unreachable on every
attempt (the httpx call raises each time). -/
theorem C9_every_failure_retried_witness :
    (∀ k, k < max_retries → (fun _ => NotifyAttempt.exn) k ≠ NotifyAttempt.status 200)
    ∧ bot_notify_service (fun _ => NotifyAttempt.exn)
        = { result := false, attempts := 3, sleeps := 3 } :=
  ⟨by decide, C9_every_failure_retried_up_to_three_attempts (fun _ => NotifyAttempt.exn)
    (by decide)⟩

/-! ## Claim C10 — failed AI evaluation declines silently -/

/-- The state with a request recorded as seen (active_requests[key] =
request), the only state change the silent-decline path performs. -/
def recordActiveRequest (st : ProviderState) (request_key : String)
    (request : ServiceRequest) : ProviderState :=
  { st with active_requests := dictInsert st.active_requests request_key request }

/-- Claim C10: for a fresh request from a non-demo requester whose
category the provider can serve, when the AI fulfil-evaluation fails
(the oracle raised or its output was unparseable, so run_ai_evaluation
falls back to can_fulfill = false), process_request ends having only
recorded the request as seen: it sends no Offer, creates no dynamic
endpoint, sends no ServiceNotification and attempts no direct data
send. -/
theorem C10_failed_evaluation_declines_silently (st : ProviderState)
    (request : ServiceRequest) (request_id : Option String) (md5 : String → String)
    (existing : Option FoundService) (freshServiceId : String) (data : String)
    (now : Nat) (negoEnv : NegotiationEnv) (fulfillData : String) (fulfillNow : Nat)
    (fulfillRequestorFound : Bool)
    (hfresh : dictLookup st.active_requests
        (request_id.getD (request.requestor_id ++ request.description)) = none)
    (hcap : request.category ∈ st.capabilities)
    (hdemo : pyStartsWith request.requestor_id "demo-" = false) :
    (run_ai_evaluation none).can_fulfill = false
    ∧ process_request st request request_id md5 none existing freshServiceId data now
        negoEnv fulfillData fulfillNow fulfillRequestorFound
      = (recordActiveRequest st
            (request_id.getD (request.requestor_id ++ request.description)) request,
         {}) := by
  constructor
  · rfl
  · have hne1 : request.requestor_id ≠ "demo-orchestrator" := by
      intro h1
      rw [h1] at hdemo
      exact absurd hdemo (by decide)
    simp [process_request, recordActiveRequest, hfresh, hcap, hne1, run_ai_evaluation]

def c10State : ProviderState :=
  { id := "prov-1", name := "prov", description := "a provider",
    api_endpoint := "http://prov", capabilities := [ServiceCategory.ai] }

def c10Request : ServiceRequest :=
  { requestor_id := "alice", category := ServiceCategory.ai,
    description := "latest ai trends" }

/-- Witness for C10 at a concrete provider and request, with the oracle
failing. -/
theorem C10_failed_evaluation_declines_silently_witness :
    dictLookup c10State.active_requests
        ((some "req-9").getD (c10Request.requestor_id ++ c10Request.description)) = none
    ∧ c10Request.category ∈ c10State.capabilities
    ∧ pyStartsWith c10Request.requestor_id "demo-" = false
    ∧ ((run_ai_evaluation none).can_fulfill = false
      ∧ process_request c10State c10Request (some "req-9") (fun s => s) none none
          "fresh-svc" "payload" 42 NegotiationEnv.notFound "payload2" 43 true
        = (recordActiveRequest c10State
              ((some "req-9").getD (c10Request.requestor_id ++ c10Request.description))
              c10Request,
           {})) :=
  ⟨by decide, by decide, by decide,
    C10_failed_evaluation_declines_silently c10State c10Request (some "req-9")
      (fun s => s) none "fresh-svc" "payload" 42 NegotiationEnv.notFound "payload2" 43 true
      (by decide) (by decide) (by decide)⟩

/-! ## Claim C4 — ranking merges every response exactly once

Supporting definitions and lemmas about the two merge loops of
rank_responses. -/

/-- The dict mutation performed on an unscored response in the second
merge loop: score 0, reasoning "Not evaluated". -/
def markUnevaluated (r : SvcResponse) : SvcResponse :=
  { r with quality_score := some 0, quality_reasoning := some "Not evaluated" }

/-- Whether the oracle output contains a score for this response's
service id. -/
def oracleScored (rankings : List RankingEntry) (r : SvcResponse) : Bool :=
  rankings.any (fun rank => decide (rank.service_id = r.service_id))

/-- The positions appended by the first merge loop: for each oracle
ranking in order, the first position of the id list carrying its service
id, when there is one. -/
def refsOf (rankings : List RankingEntry) (ids : List String) : List Nat :=
  rankings.filterMap (fun rank => findFirstIdx (fun s => decide (s = rank.service_id)) ids)

def c4RespA : SvcResponse :=
  { service_id := "a", provider_id := "pa", data := "da" }

def c4RespB : SvcResponse :=
  { service_id := "b", provider_id := "pb", data := "db" }

def c4DupRankings : List RankingEntry :=
  [{ service_id := "a", quality_score := mkRat 9 10, reasoning := "strong" },
   { service_id := "a", quality_score := mkRat 9 10, reasoning := "strong" }]

def c4SameIdResponses : List SvcResponse :=
  [{ service_id := "a", provider_id := "p1", data := "d1" },
   { service_id := "a", provider_id := "p2", data := "d2" }]

/-- Counterexample to claim C4: the claim promises exactly one output
entry per input response for every oracle output, including outputs that
score a response more than once, with unscored responses carrying
rationale "not evaluated".  The code violates each part: (i) an oracle
output scoring service id "a" twice appends the "a" response twice, so
two inputs yield three outputs with "a" duplicated; (ii) the rationale
the code writes is "Not evaluated", not "not evaluated"; (iii) two input
responses sharing a service id collapse to a single output entry (one is
silently dropped), so the output can also have fewer entries. -/
theorem C4_one_entry_per_response_counterexample :
    ((rank_responses (some c4DupRankings) [c4RespA, c4RespB]).filter
        (fun r => decide (r.service_id = "a"))).length = 2
    ∧ (rank_responses (some c4DupRankings) [c4RespA, c4RespB]).length = 3
    ∧ [c4RespA, c4RespB].length = 2
    ∧ (rank_responses (some c4DupRankings) [c4RespA, c4RespB]).getLast?
        = some (markUnevaluated c4RespB)
    ∧ (markUnevaluated c4RespB).quality_reasoning = some "Not evaluated"
    ∧ "Not evaluated" ≠ "not evaluated"
    ∧ (rank_responses (some [⟨"a", mkRat 4 5, "ok"⟩]) c4SameIdResponses).length = 1
    ∧ c4SameIdResponses.length = 2 := by
  refine ⟨by decide, by decide, by decide, by decide, by decide, by decide, by decide,
    by decide⟩

/-- setQualityAt does not change the service ids. -/
theorem sid_map_setQualityAt (l : List SvcResponse) (i : Nat) (q : ℚ) (s : String) :
    (setQualityAt l i q s).map (·.service_id) = l.map (·.service_id) := by
  induction l generalizing i with
  | nil => cases i <;> rfl
  | cons r rest ih =>
    cases i with
    | zero => rfl
    | succ j => simp only [setQualityAt, List.map_cons, ih]

/-- setQualityAt does not change the length. -/
theorem length_setQualityAt (l : List SvcResponse) (i : Nat) (q : ℚ) (s : String) :
    (setQualityAt l i q s).length = l.length := by
  induction l generalizing i with
  | nil => cases i <;> rfl
  | cons r rest ih =>
    cases i with
    | zero => rfl
    | succ j => simp only [setQualityAt, List.length_cons, ih]

/-- setQualityAt leaves every other position untouched. -/
theorem get?_setQualityAt_ne (l : List SvcResponse) (i j : Nat) (q : ℚ) (s : String)
    (h : i ≠ j) : (setQualityAt l i q s).get? j = l.get? j := by
  induction l generalizing i j with
  | nil => cases i <;> rfl
  | cons r rest ih =>
    cases i with
    | zero =>
      cases j with
      | zero => exact absurd rfl h
      | succ j2 => rfl
    | succ i2 =>
      cases j with
      | zero => rfl
      | succ j2 => exact ih i2 j2 (fun he => h (by rw [he]))

/-- setQualityAt writes exactly the two quality fields at its position. -/
theorem get?_setQualityAt_eq (l : List SvcResponse) (i : Nat) (q : ℚ) (s : String) :
    (setQualityAt l i q s).get? i
      = (l.get? i).map
          (fun r => { r with quality_score := some q, quality_reasoning := some s }) := by
  induction l generalizing i with
  | nil => cases i <;> rfl
  | cons r rest ih =>
    cases i with
    | zero => rfl
    | succ i2 => exact ih i2

/-- findFirstIdx over a mapped list. -/
theorem findFirstIdx_map {α β : Type} (f : α → β) (p : β → Bool) (l : List α) :
    findFirstIdx p (l.map f) = findFirstIdx (fun a => p (f a)) l := by
  induction l with
  | nil => rfl
  | cons a rest ih => simp only [List.map_cons, findFirstIdx, ih]

/-- A found first index is in bounds. -/
theorem findFirstIdx_lt_length {α : Type} (p : α → Bool) (l : List α) (i : Nat)
    (h : findFirstIdx p l = some i) : i < l.length := by
  induction l generalizing i with
  | nil => cases h
  | cons a rest ih =>
    simp only [findFirstIdx] at h
    by_cases hp : p a
    · simp [hp] at h
      subst h
      simp
    · simp only [hp, if_false, Bool.false_eq_true, if_neg, not_false_iff,
        Option.map_eq_some'] at h
      rcases h with ⟨j, hj, rfl⟩
      have := ih j hj
      simp only [List.length_cons]
      omega

/-- The element at a found first index satisfies the predicate; for an
equality predicate this pins down the element. -/
theorem get?_of_findFirstIdx {α : Type} [DecidableEq α] (x : α) (l : List α) (i : Nat)
    (h : findFirstIdx (fun s => decide (s = x)) l = some i) : l.get? i = some x := by
  induction l generalizing i with
  | nil => cases h
  | cons a rest ih =>
    simp only [findFirstIdx] at h
    by_cases hp : a = x
    · simp [hp] at h
      subst h
      simp [hp]
    · simp only [hp, decide_False, Bool.false_eq_true, if_neg, not_false_iff,
        Option.map_eq_some'] at h
      rcases h with ⟨j, hj, rfl⟩
      simpa using ih j hj

/-- In a list without duplicates, the first index holding x is the only
index holding x. -/
theorem findFirstIdx_of_nodup {α : Type} [DecidableEq α] (x : α) (l : List α) (i : Nat)
    (hnd : l.Nodup) (h : l.get? i = some x) :
    findFirstIdx (fun s => decide (s = x)) l = some i := by
  induction l generalizing i with
  | nil => cases h
  | cons a rest ih =>
    rcases List.nodup_cons.mp hnd with ⟨hna, hrest⟩
    cases i with
    | zero =>
      simp only [List.get?_cons_zero] at h
      injection h with h2
      subst h2
      simp [findFirstIdx]
    | succ i2 =>
      simp only [List.get?_cons_succ] at h
      have hx : x ∈ rest := List.get?_mem h
      have hax : ¬ (a = x) := fun he => hna (he ▸ hx)
      simp [findFirstIdx, hax, ih i2 hrest h]

/-- Specification of the first merge loop of rank_responses: the service
ids of the store are unchanged, the appended positions are exactly
refsOf, and every position outside refsOf is untouched. -/
theorem rankingsLoop_spec (rankings : List RankingEntry) (resps : List SvcResponse)
    (refs0 : List Nat) :
    (rankingsLoop rankings (resps, refs0)).1.map (·.service_id) = resps.map (·.service_id)
    ∧ (rankingsLoop rankings (resps, refs0)).2
        = refs0 ++ refsOf rankings (resps.map (·.service_id))
    ∧ ∀ j, j ∉ refsOf rankings (resps.map (·.service_id)) →
        (rankingsLoop rankings (resps, refs0)).1.get? j = resps.get? j := by
  induction rankings generalizing resps refs0 with
  | nil =>
    refine ⟨rfl, by simp [rankingsLoop, refsOf], fun j hj => rfl⟩
  | cons rank rest ih =>
    cases hf : findFirstIdx (fun r => decide (r.service_id = rank.service_id)) resps with
    | none =>
      have hstep : rankingsLoop (rank :: rest) (resps, refs0)
          = rankingsLoop rest (resps, refs0) := by
        simp only [rankingsLoop, List.foldl_cons]
        rw [hf]
      have hg : findFirstIdx (fun s => decide (s = rank.service_id))
          (resps.map (·.service_id)) = none := by
        rw [findFirstIdx_map]
        exact hf
      have hro : refsOf (rank :: rest) (resps.map (·.service_id))
          = refsOf rest (resps.map (·.service_id)) := by
        simp only [refsOf, List.filterMap_cons]
        rw [hg]
      rw [hstep, hro]
      exact ih resps refs0
    | some i =>
      have hstep : rankingsLoop (rank :: rest) (resps, refs0)
          = rankingsLoop rest
              (setQualityAt resps i rank.quality_score rank.reasoning, refs0 ++ [i]) := by
        simp only [rankingsLoop, List.foldl_cons]
        rw [hf]
      have hg : findFirstIdx (fun s => decide (s = rank.service_id))
          (resps.map (·.service_id)) = some i := by
        rw [findFirstIdx_map]
        exact hf
      have hro : refsOf (rank :: rest) (resps.map (·.service_id))
          = i :: refsOf rest (resps.map (·.service_id)) := by
        simp only [refsOf, List.filterMap_cons]
        rw [hg]
      have hsid : (setQualityAt resps i rank.quality_score rank.reasoning).map
          (·.service_id) = resps.map (·.service_id) :=
        sid_map_setQualityAt resps i rank.quality_score rank.reasoning
      obtain ⟨ih1, ih2, ih3⟩ :=
        ih (setQualityAt resps i rank.quality_score rank.reasoning) (refs0 ++ [i])
      rw [hsid] at ih1 ih2 ih3
      refine ⟨?_, ?_, ?_⟩
      · rw [hstep, ih1]
      · rw [hstep, ih2, hro, List.append_assoc]
        rfl
      · intro j hj
        rw [hro] at hj
        have hji : j ≠ i := fun he => hj (he ▸ List.mem_cons_self i _)
        have hjr : j ∉ refsOf rest (resps.map (·.service_id)) :=
          fun hm => hj (List.mem_cons_of_mem i hm)
        rw [hstep, ih3 j hjr, get?_setQualityAt_ne resps i j _ _ (Ne.symm hji)]

/-- When service ids are distinct, the id-based skip test of the second
merge loop is exactly the position-membership test. -/
theorem unranked_skip_eq_mem (resps : List SvcResponse) (refs : List Nat) (j : Nat)
    (hnd : (resps.map (·.service_id)).Nodup)
    (hrefs : ∀ i ∈ refs, i < resps.length)
    (hj : j < resps.length) :
    (refs.any fun i => decide
        (((resps.get? i).map (·.service_id)).getD ""
          = ((resps.get? j).map (·.service_id)).getD "")) = true
    ↔ j ∈ refs := by
  constructor
  · intro h
    rcases List.any_eq_true.mp h with ⟨i, himem, hdec⟩
    have hi : i < resps.length := hrefs i himem
    have hi2 : i < (resps.map (·.service_id)).length := by
      rw [List.length_map]
      exact hi
    obtain ⟨ri, hri⟩ : ∃ ri, resps.get? i = some ri := by
      cases hq : resps.get? i
      · rw [List.get?_eq_none] at hq
        omega
      · exact ⟨_, rfl⟩
    obtain ⟨rj, hrj⟩ : ∃ rj, resps.get? j = some rj := by
      cases hq : resps.get? j
      · rw [List.get?_eq_none] at hq
        omega
      · exact ⟨_, rfl⟩
    rw [hri, hrj] at hdec
    simp only [Option.map_some', Option.getD_some, decide_eq_true_eq] at hdec
    have hgi : (resps.map (·.service_id)).get? i = some ri.service_id := by
      rw [List.get?_map, hri]
      rfl
    have hgj : (resps.map (·.service_id)).get? j = some rj.service_id := by
      rw [List.get?_map, hrj]
      rfl
    have : i = j := by
      apply List.getElem?_inj hi2 hnd
      rw [← List.get?_eq_getElem?, ← List.get?_eq_getElem?, hgi, hgj, hdec]
    exact this ▸ himem
  · intro hmem
    exact List.any_eq_true.mpr ⟨j, hmem, by simp⟩

/-- Specification of the second merge loop of rank_responses, under
distinct service ids: ids are unchanged, the positions appended are the
walked positions not already referenced, those positions are marked
"Not evaluated" with score 0, and unwalked positions are untouched. -/
theorem unrankedLoop_spec (js : List Nat) (resps : List SvcResponse) (refs : List Nat)
    (hnd : (resps.map (·.service_id)).Nodup)
    (hrefs : ∀ i ∈ refs, i < resps.length)
    (hjs : ∀ j ∈ js, j < resps.length)
    (hjnd : js.Nodup) :
    (unrankedLoop js (resps, refs)).1.map (·.service_id) = resps.map (·.service_id)
    ∧ (unrankedLoop js (resps, refs)).2 = refs ++ js.filter (fun j => decide (j ∉ refs))
    ∧ (∀ j ∈ js, j ∉ refs →
        (unrankedLoop js (resps, refs)).1.get? j = (resps.get? j).map markUnevaluated)
    ∧ ∀ i, i ∉ js → (unrankedLoop js (resps, refs)).1.get? i = resps.get? i := by
  induction js generalizing resps refs with
  | nil =>
    exact ⟨rfl, by simp [unrankedLoop], fun j hj => absurd hj (List.not_mem_nil j),
      fun i hi => rfl⟩
  | cons j rest ih =>
    have hj : j < resps.length := hjs j (List.mem_cons_self _ _)
    obtain ⟨hjrest, hrnd⟩ := List.nodup_cons.mp hjnd
    by_cases hmem : j ∈ refs
    · have hcond : (refs.any fun i => decide
          (((resps.get? i).map (·.service_id)).getD ""
            = ((resps.get? j).map (·.service_id)).getD "")) = true :=
        (unranked_skip_eq_mem resps refs j hnd hrefs hj).mpr hmem
      have hstep : unrankedLoop (j :: rest) (resps, refs)
          = unrankedLoop rest (resps, refs) := by
        simp only [unrankedLoop, List.foldl_cons]
        rw [hcond]
        rfl
      obtain ⟨g1, g2, g3, g4⟩ := ih resps refs hnd hrefs
        (fun k hk => hjs k (List.mem_cons_of_mem j hk)) hrnd
      refine ⟨?_, ?_, ?_, ?_⟩
      · rw [hstep, g1]
      · rw [hstep, g2]
        have : decide (j ∉ refs) = false := by simp [hmem]
        rw [List.filter_cons, this]
        simp
      · intro k hk hkref
        rcases List.mem_cons.mp hk with rfl | hk2
        · exact absurd hmem hkref
        · rw [hstep]
          exact g3 k hk2 hkref
      · intro i hi
        rw [hstep]
        exact g4 i (fun hm => hi (List.mem_cons_of_mem j hm))
    · have hcond : (refs.any fun i => decide
          (((resps.get? i).map (·.service_id)).getD ""
            = ((resps.get? j).map (·.service_id)).getD "")) = false :=
        Bool.eq_false_iff.mpr
          (fun h => hmem ((unranked_skip_eq_mem resps refs j hnd hrefs hj).mp h))
      have hstep : unrankedLoop (j :: rest) (resps, refs)
          = unrankedLoop rest
              (setQualityAt resps j 0 "Not evaluated", refs ++ [j]) := by
        simp only [unrankedLoop, List.foldl_cons]
        rw [hcond]
        rfl
      have hlen2 : (setQualityAt resps j 0 "Not evaluated").length = resps.length :=
        length_setQualityAt resps j 0 "Not evaluated"
      have hnd2 : ((setQualityAt resps j 0 "Not evaluated").map (·.service_id)).Nodup := by
        rw [sid_map_setQualityAt]
        exact hnd
      have hrefs2 : ∀ i ∈ refs ++ [j], i < (setQualityAt resps j 0 "Not evaluated").length := by
        intro i hi
        rw [hlen2]
        rcases List.mem_append.mp hi with hi1 | hi1
        · exact hrefs i hi1
        · rw [List.mem_singleton.mp hi1]
          exact hj
      have hjs2 : ∀ k ∈ rest, k < (setQualityAt resps j 0 "Not evaluated").length := by
        intro k hk
        rw [hlen2]
        exact hjs k (List.mem_cons_of_mem j hk)
      obtain ⟨g1, g2, g3, g4⟩ :=
        ih (setQualityAt resps j 0 "Not evaluated") (refs ++ [j]) hnd2 hrefs2 hjs2 hrnd
      refine ⟨?_, ?_, ?_, ?_⟩
      · rw [hstep, g1, sid_map_setQualityAt]
      · rw [hstep, g2]
        have hfc : rest.filter (fun k => decide (k ∉ refs ++ [j]))
            = rest.filter (fun k => decide (k ∉ refs)) := by
          apply List.filter_congr
          intro k hk
          have hkj : k ≠ j := fun he => hjrest (he ▸ hk)
          simp [List.mem_append, hkj]
        have hjn : decide (j ∉ refs) = true := by simp [hmem]
        rw [hfc, List.filter_cons, hjn]
        simp
      · intro k hk hkref
        rcases List.mem_cons.mp hk with rfl | hk2
        · rw [hstep, g4 k hjrest, get?_setQualityAt_eq]
          rfl
        · have hkj : k ≠ j := fun he => hjrest (he ▸ hk2)
          have hkref2 : k ∉ refs ++ [j] := by
            intro hm
            rcases List.mem_append.mp hm with hm1 | hm1
            · exact hkref hm1
            · exact hkj (List.mem_singleton.mp hm1)
          rw [hstep, g3 k hk2 hkref2, get?_setQualityAt_ne resps j k _ _ (Ne.symm hkj)]
      · intro i hi
        have hij : i ≠ j := fun he => hi (he ▸ List.mem_cons_self j rest)
        rw [hstep, g4 i (fun hm => hi (List.mem_cons_of_mem j hm)),
          get?_setQualityAt_ne resps j i _ _ (Ne.symm hij)]

/-- Every position referenced by the first merge loop is in bounds. -/
theorem mem_refsOf_lt (rankings : List RankingEntry) (ids : List String) (i : Nat)
    (h : i ∈ refsOf rankings ids) : i < ids.length := by
  rcases List.mem_filterMap.mp h with ⟨rank, hrank, hfind⟩
  exact findFirstIdx_lt_length _ ids i hfind

/-- When the oracle scores each service id at most once, the first merge
loop references pairwise-distinct positions. -/
theorem refsOf_nodup (rankings : List RankingEntry) (ids : List String)
    (hrk : (rankings.map (·.service_id)).Nodup) : (refsOf rankings ids).Nodup := by
  induction rankings with
  | nil => exact List.nodup_nil
  | cons rank rest ih =>
    simp only [List.map_cons, List.nodup_cons] at hrk
    obtain ⟨hhead, htail⟩ := hrk
    show (List.filterMap _ (rank :: rest)).Nodup
    rw [List.filterMap_cons]
    cases hf : findFirstIdx (fun s => decide (s = rank.service_id)) ids with
    | none => exact ih htail
    | some i =>
      apply List.nodup_cons.mpr
      refine ⟨?_, ih htail⟩
      intro hmem
      rcases List.mem_filterMap.mp hmem with ⟨rank2, hr2, hf2⟩
      have h1 := get?_of_findFirstIdx rank.service_id ids i hf
      have h2 := get?_of_findFirstIdx rank2.service_id ids i hf2
      rw [h1] at h2
      injection h2 with h3
      exact hhead (h3 ▸ List.mem_map_of_mem (·.service_id) hr2)

/-- With distinct ids, a position is referenced by the first merge loop
exactly when some oracle ranking carries the id stored there. -/
theorem mem_refsOf_iff (rankings : List RankingEntry) (ids : List String) (i : Nat)
    (hnd : ids.Nodup) :
    i ∈ refsOf rankings ids ↔ ∃ rank ∈ rankings, ids.get? i = some rank.service_id := by
  constructor
  · intro h
    rcases List.mem_filterMap.mp h with ⟨rank, hrank, hfind⟩
    exact ⟨rank, hrank, get?_of_findFirstIdx _ ids i hfind⟩
  · rintro ⟨rank, hrank, hget⟩
    exact List.mem_filterMap.mpr ⟨rank, hrank, findFirstIdx_of_nodup _ ids i hnd hget⟩

/-- Reading a list at a list of in-bounds positions produces one element
per position. -/
theorem filterMap_get?_length {α : Type} (l : List α) (refs : List Nat)
    (h : ∀ i ∈ refs, i < l.length) :
    (refs.filterMap (fun i => l.get? i)).length = refs.length := by
  induction refs with
  | nil => rfl
  | cons i rest ih =>
    obtain ⟨v, hv⟩ : ∃ v, l.get? i = some v := by
      cases hq : l.get? i
      · rw [List.get?_eq_none] at hq
        have := h i (List.mem_cons_self _ _)
        omega
      · exact ⟨_, rfl⟩
    rw [List.filterMap_cons, hv]
    simp only [List.length_cons, ih (fun k hk => h k (List.mem_cons_of_mem i hk))]

/-- Reading a list at the positions of a filtered index range is
filtering the list itself, whenever the index predicate agrees with the
element predicate position by position. -/
theorem range_filter_filterMap {α : Type} (l : List α) (p : Nat → Bool) (q : α → Bool)
    (hpq : ∀ j x, l.get? j = some x → p j = q x) :
    ((List.range l.length).filter p).filterMap (fun j => l.get? j) = l.filter q := by
  induction l generalizing p q with
  | nil => rfl
  | cons a rest ih =>
    rw [List.length_cons, List.range_succ_eq_map, List.filter_cons]
    have hp0 : p 0 = q a := hpq 0 a rfl
    have hfm : ((List.range rest.length).map Nat.succ).filter p
        = ((List.range rest.length).filter (fun j => p (j + 1))).map Nat.succ := by
      rw [List.filter_map]
      rfl
    have hcompose :
        (((List.range rest.length).filter (fun j => p (j + 1))).map Nat.succ).filterMap
            (fun j => (a :: rest).get? j)
          = ((List.range rest.length).filter (fun j => p (j + 1))).filterMap
              (fun j => rest.get? j) := by
      rw [List.filterMap_map]
      rfl
    have htail := ih (fun j => p (j + 1)) q (fun j x hx => hpq (j + 1) x hx)
    cases hq : q a with
    | true =>
      rw [hp0, hq]
      simp only [if_true]
      rw [List.filterMap_cons, List.get?_cons_zero, hfm, hcompose, htail,
        List.filter_cons, hq]
      simp
    | false =>
      rw [hp0, hq]
      simp only [Bool.false_eq_true, if_false]
      rw [hfm, hcompose, htail, List.filter_cons, hq]
      simp

/-- Reading a list at every position of its index range reproduces the
list. -/
theorem filterMap_get?_range {α : Type} (l : List α) :
    (List.range l.length).filterMap (fun j => l.get? j) = l := by
  have h := range_filter_filterMap l (fun _ => true) (fun _ => true)
    (fun j x _ => rfl)
  rw [List.filter_true, List.filter_true] at h
  exact h

/-- In a list without duplicates, exactly one element equals any given
member. -/
theorem countP_eq_one_of_nodup {α : Type} [DecidableEq α] (l : List α) (x : α)
    (hnd : l.Nodup) (hx : x ∈ l) :
    l.countP (fun s => decide (s = x)) = 1 := by
  induction l with
  | nil => cases hx
  | cons a rest ih =>
    obtain ⟨hna, hrest⟩ := List.nodup_cons.mp hnd
    by_cases ha : a = x
    · rw [List.countP_cons_of_pos _ _ (by simp [ha])]
      have hz : rest.countP (fun s => decide (s = x)) = 0 := by
        apply List.countP_eq_zero.mpr
        intro b hb
        simp only [decide_eq_true_eq]
        intro he
        exact hna ((he.trans ha.symm) ▸ hb)
      rw [hz]
    · rw [List.countP_cons_of_neg _ _ (by simp [ha])]
      rcases List.mem_cons.mp hx with rfl | hx2
      · exact absurd rfl ha
      · exact ih hrest hx2

/-- Claim C4 amended: for a list of two or more responses with
pairwise-distinct service ids and an oracle output that scores each
service id at most once (entries with unknown service ids allowed), the
ranking result has exactly one entry per input response — same length,
its service ids a permutation of the input ids, each input id occurring
exactly once — and the responses the oracle did not score form exactly
the tail of the output, in input order, marked with quality score 0 and
rationale "Not evaluated", while every entry before that tail was scored
by the oracle.  (The original claim fails for duplicate oracle scores
and for the rationale's capitalisation; see the counterexample.) -/
theorem C4_ranking_one_entry_per_response (rankings : List RankingEntry)
    (responses : List SvcResponse)
    (hresp : (responses.map (·.service_id)).Nodup)
    (hrank : (rankings.map (·.service_id)).Nodup)
    (hlen : 2 ≤ responses.length) :
    (rank_responses (some rankings) responses).length = responses.length
    ∧ ((rank_responses (some rankings) responses).map (·.service_id)).Perm
        (responses.map (·.service_id))
    ∧ (∀ r ∈ responses,
        ((rank_responses (some rankings) responses).filter
            (fun o => decide (o.service_id = r.service_id))).length = 1)
    ∧ (rank_responses (some rankings) responses).drop
          (refsOf rankings (responses.map (·.service_id))).length
        = (responses.filter (fun r => !(oracleScored rankings r))).map markUnevaluated
    ∧ ∀ o ∈ (rank_responses (some rankings) responses).take
          (refsOf rankings (responses.map (·.service_id))).length,
        oracleScored rankings o = true := by
  have hng : ¬ responses.length ≤ 1 := by omega
  obtain ⟨r1, r2, r3⟩ := rankingsLoop_spec rankings responses []
  have r2a : (rankingsLoop rankings (responses, [])).2
      = refsOf rankings (responses.map (·.service_id)) := by
    rw [r2, List.nil_append]
  have hP1len : (rankingsLoop rankings (responses, [])).1.length = responses.length := by
    have h := congrArg List.length r1
    simpa using h
  have hnd1 : ((rankingsLoop rankings (responses, [])).1.map (·.service_id)).Nodup := by
    rw [r1]
    exact hresp
  have hrefs1 : ∀ i ∈ (rankingsLoop rankings (responses, [])).2,
      i < (rankingsLoop rankings (responses, [])).1.length := by
    intro i hi
    rw [r2a] at hi
    have h := mem_refsOf_lt _ _ _ hi
    rw [List.length_map] at h
    rw [hP1len]
    exact h
  have hjs1 : ∀ j ∈ List.range responses.length,
      j < (rankingsLoop rankings (responses, [])).1.length := by
    intro j hj
    rw [hP1len]
    exact List.mem_range.mp hj
  obtain ⟨u1, u2, u3, u4⟩ := unrankedLoop_spec (List.range responses.length)
    (rankingsLoop rankings (responses, [])).1 (rankingsLoop rankings (responses, [])).2
    hnd1 hrefs1 hjs1 (List.nodup_range responses.length)
  have hform : rank_responses (some rankings) responses
      = (unrankedLoop (List.range responses.length)
          ((rankingsLoop rankings (responses, [])).1,
           (rankingsLoop rankings (responses, [])).2)).2.filterMap
          (fun i => (unrankedLoop (List.range responses.length)
            ((rankingsLoop rankings (responses, [])).1,
             (rankingsLoop rankings (responses, [])).2)).1.get? i) := by
    unfold rank_responses
    rw [if_neg hng]
  have hF1 : (unrankedLoop (List.range responses.length)
      ((rankingsLoop rankings (responses, [])).1,
       (rankingsLoop rankings (responses, [])).2)).1.map (·.service_id)
      = responses.map (·.service_id) := by
    rw [u1, r1]
  have hF1len : (unrankedLoop (List.range responses.length)
      ((rankingsLoop rankings (responses, [])).1,
       (rankingsLoop rankings (responses, [])).2)).1.length = responses.length := by
    have h := congrArg List.length hF1
    simpa using h
  have hF2 : (unrankedLoop (List.range responses.length)
      ((rankingsLoop rankings (responses, [])).1,
       (rankingsLoop rankings (responses, [])).2)).2
      = refsOf rankings (responses.map (·.service_id))
        ++ (List.range responses.length).filter
            (fun j => decide (j ∉ refsOf rankings (responses.map (·.service_id)))) := by
    rw [u2, r2a]
  have hndF2 : (unrankedLoop (List.range responses.length)
      ((rankingsLoop rankings (responses, [])).1,
       (rankingsLoop rankings (responses, [])).2)).2.Nodup := by
    rw [hF2]
    apply List.nodup_append.mpr
    refine ⟨refsOf_nodup rankings _ hrank,
      List.Nodup.filter _ (List.nodup_range responses.length), ?_⟩
    intro a ha hb
    rcases List.mem_filter.mp hb with ⟨hb1, hb2⟩
    exact (of_decide_eq_true hb2) ha
  have hmemF2 : ∀ a, a ∈ (unrankedLoop (List.range responses.length)
      ((rankingsLoop rankings (responses, [])).1,
       (rankingsLoop rankings (responses, [])).2)).2
        ↔ a ∈ List.range responses.length := by
    intro a
    rw [hF2]
    constructor
    · intro h
      rcases List.mem_append.mp h with h1 | h1
      · have h2 := mem_refsOf_lt _ _ _ h1
        rw [List.length_map] at h2
        exact List.mem_range.mpr h2
      · exact (List.mem_filter.mp h1).1
    · intro h
      by_cases hm : a ∈ refsOf rankings (responses.map (·.service_id))
      · exact List.mem_append.mpr (Or.inl hm)
      · exact List.mem_append.mpr (Or.inr (List.mem_filter.mpr ⟨h, by simp [hm]⟩))
  have hperm : (unrankedLoop (List.range responses.length)
      ((rankingsLoop rankings (responses, [])).1,
       (rankingsLoop rankings (responses, [])).2)).2.Perm
        (List.range responses.length) :=
    (List.perm_ext_iff_of_nodup hndF2 (List.nodup_range responses.length)).mpr hmemF2
  have hmapout : (rank_responses (some rankings) responses).map (·.service_id)
      = (unrankedLoop (List.range responses.length)
          ((rankingsLoop rankings (responses, [])).1,
           (rankingsLoop rankings (responses, [])).2)).2.filterMap
          (fun i => (responses.map (·.service_id)).get? i) := by
    rw [hform, List.map_filterMap]
    apply List.filterMap_congr
    intro i hi
    rw [← List.get?_map, hF1]
  have hrangeids : (List.range responses.length).filterMap
      (fun i => (responses.map (·.service_id)).get? i)
      = responses.map (·.service_id) := by
    have h := filterMap_get?_range (responses.map (·.service_id))
    rw [List.length_map] at h
    exact h
  have hpermids : ((rank_responses (some rankings) responses).map (·.service_id)).Perm
      (responses.map (·.service_id)) := by
    rw [hmapout]
    have h := hperm.filterMap (fun i => (responses.map (·.service_id)).get? i)
    rw [hrangeids] at h
    exact h
  have hlenout : (rank_responses (some rankings) responses).length = responses.length := by
    have h := hpermids.length_eq
    simpa using h
  have hboundsR : ∀ i ∈ refsOf rankings (responses.map (·.service_id)),
      i < (unrankedLoop (List.range responses.length)
        ((rankingsLoop rankings (responses, [])).1,
         (rankingsLoop rankings (responses, [])).2)).1.length := by
    intro i hi
    rw [hF1len]
    have h := mem_refsOf_lt _ _ _ hi
    rw [List.length_map] at h
    exact h
  have hlen1 : ((refsOf rankings (responses.map (·.service_id))).filterMap
      (fun i => (unrankedLoop (List.range responses.length)
        ((rankingsLoop rankings (responses, [])).1,
         (rankingsLoop rankings (responses, [])).2)).1.get? i)).length
      = (refsOf rankings (responses.map (·.service_id))).length :=
    filterMap_get?_length _ _ hboundsR
  have hsplit : rank_responses (some rankings) responses
      = (refsOf rankings (responses.map (·.service_id))).filterMap
          (fun i => (unrankedLoop (List.range responses.length)
            ((rankingsLoop rankings (responses, [])).1,
             (rankingsLoop rankings (responses, [])).2)).1.get? i)
        ++ ((List.range responses.length).filter
            (fun j => decide (j ∉ refsOf rankings (responses.map (·.service_id))))).filterMap
          (fun i => (unrankedLoop (List.range responses.length)
            ((rankingsLoop rankings (responses, [])).1,
             (rankingsLoop rankings (responses, [])).2)).1.get? i) := by
    rw [hform, hF2, List.filterMap_append]
  refine ⟨hlenout, hpermids, ?_, ?_, ?_⟩
  · intro r hr
    rw [← List.countP_eq_length_filter]
    have hone := countP_eq_one_of_nodup (responses.map (·.service_id)) r.service_id hresp
      (List.mem_map_of_mem _ hr)
    calc (rank_responses (some rankings) responses).countP
          (fun o => decide (o.service_id = r.service_id))
        = ((rank_responses (some rankings) responses).map (·.service_id)).countP
            (fun s => decide (s = r.service_id)) :=
          (List.countP_map (fun s => decide (s = r.service_id))
            (fun o : SvcResponse => o.service_id)
            (rank_responses (some rankings) responses)).symm
      _ = (responses.map (·.service_id)).countP (fun s => decide (s = r.service_id)) :=
          hpermids.countP_eq _
      _ = 1 := hone
  · rw [hsplit, List.drop_left' hlen1]
    have htail2 : ((List.range responses.length).filter
          (fun j => decide (j ∉ refsOf rankings (responses.map (·.service_id))))).filterMap
          (fun i => (unrankedLoop (List.range responses.length)
            ((rankingsLoop rankings (responses, [])).1,
             (rankingsLoop rankings (responses, [])).2)).1.get? i)
        = ((List.range responses.length).filter
            (fun j => decide (j ∉ refsOf rankings (responses.map (·.service_id))))).filterMap
          (fun j => (responses.get? j).map markUnevaluated) := by
      apply List.filterMap_congr
      intro j hj
      rcases List.mem_filter.mp hj with ⟨hjr, hjd⟩
      have hjnot : j ∉ refsOf rankings (responses.map (·.service_id)) :=
        of_decide_eq_true hjd
      have hjnot2 : j ∉ (rankingsLoop rankings (responses, [])).2 := by
        rw [r2a]
        exact hjnot
      rw [u3 j hjr hjnot2, r3 j hjnot]
    rw [htail2, (List.map_filterMap _ _ _).symm]
    apply congrArg (List.map markUnevaluated)
    apply range_filter_filterMap responses
    intro j x hjx
    have hgx : (responses.map (·.service_id)).get? j = some x.service_id := by
      rw [List.get?_map, hjx]
      rfl
    have hiff : j ∈ refsOf rankings (responses.map (·.service_id))
        ↔ oracleScored rankings x = true := by
      rw [mem_refsOf_iff _ _ _ hresp]
      constructor
      · rintro ⟨rank, hrankm, hg⟩
        rw [hgx] at hg
        injection hg with hg2
        exact List.any_eq_true.mpr ⟨rank, hrankm, by simp [hg2]⟩
      · intro hany
        rcases List.any_eq_true.mp hany with ⟨rank, hrankm, hdec⟩
        have he : rank.service_id = x.service_id := of_decide_eq_true hdec
        exact ⟨rank, hrankm, by rw [hgx, he]⟩
    cases hsc : oracleScored rankings x with
    | true =>
      have hmemj := hiff.mpr hsc
      simp [hmemj]
    | false =>
      have hnot : j ∉ refsOf rankings (responses.map (·.service_id)) := by
        intro hm
        rw [hiff.mp hm] at hsc
        cases hsc
      simp [hnot]
  · intro o ho
    rw [hsplit, List.take_left' hlen1] at ho
    rcases List.mem_filterMap.mp ho with ⟨i, hi, hgi⟩
    have hsid : (responses.map (·.service_id)).get? i = some o.service_id := by
      rw [← hF1, List.get?_map, hgi]
      rfl
    rcases (mem_refsOf_iff rankings _ i hresp).mp hi with ⟨rank, hrankm, hg2⟩
    rw [hsid] at hg2
    injection hg2 with hg3
    exact List.any_eq_true.mpr ⟨rank, hrankm, by simp [hg3]⟩

def c4WitnessResponses : List SvcResponse :=
  [{ service_id := "a", provider_id := "pa", data := "da" },
   { service_id := "b", provider_id := "pb", data := "db" },
   { service_id := "c", provider_id := "pc", data := "dc" }]

def c4WitnessRankings : List RankingEntry :=
  [{ service_id := "b", quality_score := mkRat 9 10, reasoning := "best" },
   { service_id := "zz", quality_score := mkRat 1 2, reasoning := "unknown service" }]

/-- Witness for the amended C4: three responses with distinct ids, an
oracle that scores one of them and one unknown service id. -/
theorem C4_ranking_one_entry_per_response_witness :
    (c4WitnessResponses.map (·.service_id)).Nodup
    ∧ (c4WitnessRankings.map (·.service_id)).Nodup
    ∧ 2 ≤ c4WitnessResponses.length
    ∧ ((rank_responses (some c4WitnessRankings) c4WitnessResponses).length
          = c4WitnessResponses.length
      ∧ ((rank_responses (some c4WitnessRankings) c4WitnessResponses).map
            (·.service_id)).Perm (c4WitnessResponses.map (·.service_id))
      ∧ (∀ r ∈ c4WitnessResponses,
          ((rank_responses (some c4WitnessRankings) c4WitnessResponses).filter
              (fun o => decide (o.service_id = r.service_id))).length = 1)
      ∧ (rank_responses (some c4WitnessRankings) c4WitnessResponses).drop
            (refsOf c4WitnessRankings (c4WitnessResponses.map (·.service_id))).length
          = (c4WitnessResponses.filter
              (fun r => !(oracleScored c4WitnessRankings r))).map markUnevaluated
      ∧ ∀ o ∈ (rank_responses (some c4WitnessRankings) c4WitnessResponses).take
            (refsOf c4WitnessRankings (c4WitnessResponses.map (·.service_id))).length,
          oracleScored c4WitnessRankings o = true) :=
  ⟨by decide, by decide, by decide,
    C4_ranking_one_entry_per_response c4WitnessRankings c4WitnessResponses
      (by decide) (by decide) (by decide)⟩

end Cognet
